import Mathlib

/-!
Verification of the adk-agentic-writer orchestration core against its
natural-language specification.

The development shallowly embeds the Python source:

* `src/adk_agentic_writer/utils/variable_substitution.py`
  (`substitute_variables`, `extract_variable_names`, `validate_variables`)
* `src/adk_agentic_writer/agents/stateful_agent.py`
  (`StatefulAgent.prepare_task_context`, `update_parameters`, `process_task`)
* `src/adk_agentic_writer/workflows/base_workflow.py`
  (`Workflow._execute_sequential/_parallel/_loop/_conditional`)
* `src/adk_agentic_writer/runtime/agent_runtime.py`
  (`AgentRuntime.get_agent/get_team/get_workflow/execute_workflow/execute_task_with_agent`)

Python dynamic values are embedded as the inductive `Value`; Python dicts are
association lists observed through `dget` (first binding wins), and
`d.update(u)` is embedded as `dictUpdate d u = u ++ d`, which has exactly the
update's lookup semantics (keys of `u` win, other keys fall through).
Stateful Python objects are embedded by explicit state passing: a method that
mutates `self` becomes a function returning the new state, and an exception
raised mid-method leaves the mutations made so far in place, so fallible
operations return `(Except err result) × state`.
-/

namespace AW

/-- Embedding of the Python values that flow through the orchestration core:
`None`, strings, ints, bools, dicts and lists (`Any` in the source). -/
inductive Value where
  | none : Value
  | str : String → Value
  | int : Int → Value
  | bool : Bool → Value
  | dict : List (String × Value) → Value
  | list : List Value → Value

/-- A Python `Dict[str, Any]` as an association list; lookup takes the first
binding, and updates prepend, so later updates win exactly as in Python. -/
abbrev Ctx := List (String × Value)

/-- `d.get(k)` / `k in d`: first binding for `k`, if any. -/
def dget : Ctx → String → Option Value
  | [], _ => Option.none
  | (k, v) :: rest, key => if k == key then some v else dget rest key

/-- `d.update(u)` observed through `dget`: bindings of `u` shadow those of `d`. -/
def dictUpdate (d u : Ctx) : Ctx := u ++ d

/-- `d[k] = v` observed through `dget`. -/
def dset (d : Ctx) (k : String) (v : Value) : Ctx := (k, v) :: d

/-- A single quote character, used by the Python `repr` of strings. -/
def squote : String := String.mk [Char.ofNat 39]

mutual
/-- Python `repr(value)`, used by `str` on the elements of containers. -/
def pyrepr : Value → String
  | .none => "None"
  | .str s => squote ++ s ++ squote
  | .int n => toString n
  | .bool b => cond b "True" "False"
  | .dict m => "\x7b" ++ reprEntries m ++ "\x7d"
  | .list l => "[" ++ reprItems l ++ "]"

/-- Comma-separated `repr` of a dict's entries. -/
def reprEntries : List (String × Value) → String
  | [] => ""
  | [(k, v)] => squote ++ k ++ squote ++ ": " ++ pyrepr v
  | (k, v) :: rest => squote ++ k ++ squote ++ ": " ++ pyrepr v ++ ", " ++ reprEntries rest

/-- Comma-separated `repr` of a list's items. -/
def reprItems : List Value → String
  | [] => ""
  | [v] => pyrepr v
  | v :: rest => pyrepr v ++ ", " ++ reprItems rest
end

/-- Python `str(value)`: the string itself for strings, `repr`-style rendering
otherwise (matching `str` on `None`, ints, bools and containers). -/
def pystr : Value → String
  | .str s => s
  | v => pyrepr v

/-- Python `value == some_string` for an arbitrary value: only a string can
compare equal to a string. -/
def pyStrEq : Value → String → Bool
  | .str s, t => s == t
  | _, _ => false

/-!
Tokenization of a template against the regex `\x7b([^\x7d]+)\x7d` used by both
`re.sub` (in `substitute_variables`) and `re.findall` (in
`extract_variable_names`): scanning left to right, an opening brace followed by
at least one non-closing-brace character and then a closing brace is a
placeholder match (its content may itself contain opening braces); everything
else is literal text, and scanning resumes after each match.
-/

/-- Split a character list at the first closing brace: returns the characters
before it and the characters after it, or `none` if there is no closing brace. -/
def splitAtClose : List Char → Option (List Char × List Char)
  | [] => Option.none
  | c :: rest =>
    if c = '\x7d' then some ([], rest)
    else (splitAtClose rest).map (fun p => (c :: p.1, p.2))

/-- A token of a template: a literal character or a placeholder's content. -/
inductive Tok where
  | lit : Char → Tok
  | ph : List Char → Tok

/-- Fuelled scanner for the regex above; the fuel only needs to cover the
length of the input (each step consumes at least one character). -/
def tokenizeF : Nat → List Char → List Tok
  | 0, _ => []
  | _ + 1, [] => []
  | f + 1, c :: rest =>
    if c = '\x7b' then
      match splitAtClose rest with
      | some (content, rest') =>
        if content.isEmpty then .lit c :: tokenizeF f rest
        else .ph content :: tokenizeF f rest'
      | Option.none => .lit c :: tokenizeF f rest
    else .lit c :: tokenizeF f rest

/-- Tokenize a template's characters. -/
def tokenize (cs : List Char) : List Tok := tokenizeF cs.length cs

/-- Python `var_name.split(".")` with an explicit accumulator. -/
def splitDotAux : List Char → List Char → List String
  | [], acc => [String.mk acc.reverse]
  | c :: rest, acc =>
    if c = '.' then String.mk acc.reverse :: splitDotAux rest []
    else splitDotAux rest (c :: acc)

/-- Python `var_name.split(".")`. -/
def splitOnDot (cs : List Char) : List String := splitDotAux cs []

/-- The original placeholder text `match.group(0)` for a given content. -/
def phOrig (content : List Char) : String := "\x7b" ++ String.mk content ++ "\x7d"

/-- The dotted-path walk of `replace_var` in `substitute_variables`: starting
from the whole context, each path part requires a dict and looks the part up
with the original placeholder text as default; a non-dict mid-walk returns the
original text, and the final value is rendered with `str`. -/
def substWalk (orig : String) : Value → List String → String
  | v, [] => pystr v
  | .dict m, part :: rest => substWalk orig ((dget m part).getD (.str orig)) rest
  | _, _ :: _ => orig

/-- The `replace_var` callback of `substitute_variables`: dotted names walk
nested dicts; simple names are looked up directly, keeping the original text
when absent (the source compares the fetched value against `match.group(0)`
before rendering, which only a string can equal). -/
def replaceVar (vars : Ctx) (content : List Char) : String :=
  let orig := phOrig content
  if content.contains '.' then
    substWalk orig (.dict vars) (splitOnDot content)
  else
    let value : Value := (dget vars (String.mk content)).getD (.str orig)
    if pyStrEq value orig then orig else pystr value

/-- Render one token of the template during substitution. -/
def renderTok (vars : Ctx) : Tok → String
  | .lit c => String.mk [c]
  | .ph content => replaceVar vars content

/-- `substitute_variables(text, variables)` from
`utils/variable_substitution.py`: `re.sub` of the placeholder pattern with
`replace_var` over the template. -/
def substitute_variables (text : String) (vars : Ctx) : String :=
  String.join ((tokenize text.data).map (renderTok vars))

/-- The placeholder contents of a template, in order of occurrence. -/
def extractContents (text : String) : List (List Char) :=
  (tokenize text.data).filterMap fun t =>
    match t with
    | .ph content => some content
    | .lit _ => Option.none

/-- `extract_variable_names(text)`: `re.findall` of the placeholder pattern. -/
def extract_variable_names (text : String) : List String :=
  (extractContents text).map String.mk

/-- The dotted-path walk of `validate_variables`: each part is fetched with
`dict.get(part)` and a `None` outcome (absent key or stored `None`) marks the
name missing, as does a non-dict value with parts remaining. Returns `true`
when the name is missing. -/
def validateWalk : Value → List String → Bool
  | _, [] => false
  | .dict m, part :: rest =>
    match dget m part with
    | some .none => true
    | some v => validateWalk v rest
    | Option.none => true
  | _, _ :: _ => true

/-- Whether `validate_variables` reports a placeholder content as missing:
dotted names use `validateWalk`; simple names use `var_name not in vars`. -/
def isMissingName (vars : Ctx) (content : List Char) : Bool :=
  if content.contains '.' then validateWalk (.dict vars) (splitOnDot content)
  else (dget vars (String.mk content)).isNone

/-- `validate_variables(text, variables)`: the missing placeholder names in
template order, paired with `len(missing) == 0`. -/
def validate_variables (text : String) (vars : Ctx) : Bool × List String :=
  let missing := ((extractContents text).filter (isMissingName vars)).map String.mk
  (missing.isEmpty, missing)

/-!
Specification-side notion of resolution for one placeholder (from the spec's
words in section 4.1): a simple name resolves when it is bound in the context;
a dotted name resolves when the path walks through nested dicts with every
part present, whatever the final value is.
-/

/-- Walk a dotted path strictly: every step must be a dict binding the part. -/
def resolveWalk : Value → List String → Option Value
  | v, [] => some v
  | .dict m, part :: rest =>
    match dget m part with
    | some v => resolveWalk v rest
    | Option.none => Option.none
  | _, _ :: _ => Option.none

/-- The value a placeholder content resolves to in a context, if any. -/
def resolvePh (vars : Ctx) (content : List Char) : Option Value :=
  if content.contains '.' then resolveWalk (.dict vars) (splitOnDot content)
  else dget vars (String.mk content)


/-!
The stateful agent (`agents/stateful_agent.py`). An `AgentTask` is embedded
with the fields `StatefulAgent.process_task` actually reads from the task it
is handed (`task_id`, `prompt`, `parameters`, `output_key`); generation logic
(`_execute_task`, overridden by subclasses and explicitly out of the spec's
scope) is a parameter `gen` that receives the task and the resolved prompt and
either returns a result dict or raises.
-/

/-- The status values of `AgentStatus` in `models/agent_models.py`. -/
inductive AgentStatus where
  | idle | working | waiting | completed | error
deriving DecidableEq

/-- The task record consumed by `StatefulAgent.process_task`. -/
structure AgentTask where
  task_id : String
  prompt : String
  parameters : Ctx
  output_key : Option String

/-- The mutable `AgentState` owned by a stateful agent: status bookkeeping,
the `variables` namespace (field `vars`, since `variables` is reserved in
Lean) and the free-form `metadata` dict whose
`"parameters"` slot holds the configuration-parameters namespace. -/
structure AgentState where
  agent_id : String
  status : AgentStatus
  current_task : Option String
  completed_tasks : List String
  vars : Ctx
  metadata : Ctx

/-- The `parameters` property: `self.state.metadata.get("parameters", {})`. -/
def parametersOf (st : AgentState) : Ctx :=
  match dget st.metadata "parameters" with
  | some (.dict m) => m
  | _ => []

/-- `StatefulAgent.update_parameters(updates)`: fetch the parameters dict,
apply `params.update(updates)` and store it back under
`metadata["parameters"]`. -/
def update_parameters (st : AgentState) (updates : Ctx) : AgentState :=
  { st with metadata :=
      (dset st.metadata "parameters" (.dict (dictUpdate (parametersOf st) updates))) }

/-- `StatefulAgent.prepare_task_context(task)`: start from the parameters,
overlay the variables dict, then overlay `task.parameters` when that dict is
non-empty (`if task.parameters:` is false for an empty dict). -/
def prepare_task_context (st : AgentState) (task : AgentTask) : Ctx :=
  let context := parametersOf st
  let context := dictUpdate context st.vars
  if task.parameters.isEmpty then context
  else dictUpdate context task.parameters

/-- `StatefulAgent.substitute_task_prompt(task)`. -/
def substitute_task_prompt (st : AgentState) (task : AgentTask) : String :=
  substitute_variables task.prompt (prepare_task_context st task)

/-- `StatefulAgent.validate_task_requirements(task)`. -/
def validate_task_requirements (st : AgentState) (task : AgentTask) : Bool × List String :=
  validate_variables task.prompt (prepare_task_context st task)

/-- The generation logic invoked by `process_task` as `_execute_task(task,
resolved_prompt)`: returns a result dict or raises an exception of type `e`. -/
abbrev Gen (e : Type) := AgentTask → String → Except e Ctx

/-- The state mutations `process_task` performs before invoking the
generation logic: set status to working, record the current task, and merge
any provided non-empty extra parameters into the parameter namespace
(`if parameters:` is false for `None` and for an empty dict). -/
def midState (st : AgentState) (task : AgentTask) (parameters : Option Ctx) :
    AgentState :=
  let st := { st with status := AgentStatus.working }
  let st := { st with current_task := some task.task_id }
  match parameters with
  | some ps => if ps.isEmpty then st else update_parameters st ps
  | Option.none => st

/-- The mutations `process_task` performs after the generation logic
succeeds: store the result under `task.output_key` when present, append the
task to the completed list, clear the current task, set status to completed. -/
def finishState (st : AgentState) (task : AgentTask) (result : Ctx) : AgentState :=
  let st :=
    match task.output_key with
    | some key => { st with vars := dset st.vars key (.dict result) }
    | Option.none => st
  let st := { st with completed_tasks := st.completed_tasks ++ [task.task_id] }
  let st := { st with current_task := Option.none }
  { st with status := AgentStatus.completed }

/-- `StatefulAgent.process_task(task, parameters)`: apply the `midState`
mutations, resolve the prompt against the merged context
(`validate_task_requirements` is also called there but its outcome is only
logged), run the generation logic `gen` on the task and resolved prompt (an
exception there propagates, leaving the `midState` mutations in place), and on
success apply the `finishState` mutations and return the result. -/
def process_task (gen : Gen e) (st : AgentState) (task : AgentTask)
    (parameters : Option Ctx) : Except e Ctx × AgentState :=
  let st := midState st task parameters
  match gen task (substitute_task_prompt st task) with
  | .error exc => (.error exc, st)
  | .ok result => (.ok result, finishState st task result)

/-!
Workflow execution patterns (`workflows/base_workflow.py`). The agents a
workflow drives expose `process_task(task_description, parameters)`; each is
embedded as a function from its own mutable state (threaded explicitly, type
`s`) and the two arguments to a result dict or a raised exception, plus the
new state. Exceptions the workflow itself raises (`ValueError` for a missing
condition, branch or agent, `TypeError`/`IndexError` from the interpreter) are
distinguished from exceptions raised inside agents, which are re-raised
untouched.
-/

/-- An exception escaping a workflow: either one raised inside an agent's
generation logic (constructor `raised` carries it unmodified), or one the
pattern code itself raises. -/
inductive PyErr (e : Type) where
  | raised : e → PyErr e
  | valueError : String → PyErr e
  | typeError : PyErr e
  | indexError : PyErr e

/-- A workflow-level agent: `process_task(task_description, parameters)` on an
object with mutable state `s`. The description and parameters are dynamic
values forwarded by the workflow. -/
abbrev WAgent (s e : Type) := s → Value → Value → Except (PyErr e) Ctx × s

/-- `input.get("task_description", "Process task")`. -/
def taskDescOf (d : Ctx) : Value :=
  (dget d "task_description").getD (.str "Process task")

/-- `input.get("parameters", {})`. -/
def wparamsOf (d : Ctx) : Value :=
  (dget d "parameters").getD (.dict [])

/-- The body of `_execute_sequential`: iterate the agents with their index,
feeding each the running result's task description and parameters, and for
every agent after the first merging the whole running result into the
parameters under `"content"` (`params = \x7b**params, "content": result\x7d`,
a `TypeError` when the parameters value is not a dict). -/
def seqGo : List (WAgent s e) → Nat → Ctx → s → Except (PyErr e) Ctx × s
  | [], _, result, st => (.ok result, st)
  | agent :: rest, i, result, st =>
    let params := wparamsOf result
    if i > 0 then
      match params with
      | .dict m =>
        match agent st (taskDescOf result) (.dict (dictUpdate m [("content", .dict result)])) with
        | (.error exc, st') => (.error exc, st')
        | (.ok r, st') => seqGo rest (i + 1) r st'
      | _ => (.error PyErr.typeError, st)
    else
      match agent st (taskDescOf result) params with
      | (.error exc, st') => (.error exc, st')
      | (.ok r, st') => seqGo rest (i + 1) r st'

/-- `Workflow._execute_sequential(input_data)`. -/
def execute_sequential (agents : List (WAgent s e)) (input : Ctx) (st : s) :
    Except (PyErr e) Ctx × s :=
  seqGo agents 0 input st

/-- Sequentialized fan-out of `_execute_parallel`: schedule every agent on the
same task description and parameters and collect the results in agent order
(`asyncio.gather` preserves input order regardless of completion order; a
raised exception fails the whole join). -/
def parGo (task_desc params : Value) : List (WAgent s e) → s → Except (PyErr e) (List Ctx) × s
  | [], st => (.ok [], st)
  | agent :: rest, st =>
    match agent st task_desc params with
    | (.error exc, st') => (.error exc, st')
    | (.ok r, st') =>
      match parGo task_desc params rest st' with
      | (.ok rs, st'') => (.ok (r :: rs), st'')
      | (.error exc, st'') => (.error exc, st'')

/-- Python `optional_string == literal`. -/
def msEq : Option String → String → Bool
  | some s, t => s == t
  | Option.none, _ => false

/-- `Workflow._execute_parallel(input_data)`: dispatch the input's task
description and parameters to every agent, gather the results in agent order,
then merge: `"first"` returns `results[0]` (an `IndexError` with no agents),
`"combine"` wraps them as `\x7b"results": [...], "merged": True\x7d`, and any
other strategy as `\x7b"results": [...]\x7d`. -/
def execute_parallel (agents : List (WAgent s e)) (merge_strategy : Option String)
    (input : Ctx) (st : s) : Except (PyErr e) Ctx × s :=
  let task_desc := taskDescOf input
  let params := wparamsOf input
  match parGo task_desc params agents st with
  | (.error exc, st') => (.error exc, st')
  | (.ok results, st') =>
    if msEq merge_strategy "first" then
      match results with
      | r :: _ => (.ok r, st')
      | [] => (.error PyErr.indexError, st')
    else if msEq merge_strategy "combine" then
      (.ok [("results", .list (results.map .dict)), ("merged", .bool true)], st')
    else
      (.ok [("results", .list (results.map .dict))], st')

/-- Python `self.max_iterations or 10`: `None` and `0` are falsy. -/
def pyIntOr (v : Option Int) (d : Int) : Int :=
  match v with
  | Option.none => d
  | some n => if n = 0 then d else n

/-- The `while iteration < max_iter` body of `_execute_loop`, with
`remaining = max_iter - iteration` as structural fuel: invoke the agent on the
running result's task description and parameters, stop when a configured
condition rejects `(result, iteration)`, otherwise increment and continue;
an exception from the agent propagates. -/
def loopGo (agent : WAgent s e) (condition : Option (Ctx → Nat → Bool)) :
    Nat → Nat → Ctx → s → Except (PyErr e) Ctx × s
  | 0, _, result, st => (.ok result, st)
  | remaining + 1, iteration, result, st =>
    match agent st (taskDescOf result) (wparamsOf result) with
    | (.error exc, st') => (.error exc, st')
    | (.ok r, st') =>
      match condition with
      | some c =>
        if c r iteration then loopGo agent condition remaining (iteration + 1) r st'
        else (.ok r, st')
      | Option.none => loopGo agent condition remaining (iteration + 1) r st'

/-- `Workflow._execute_loop(input_data)`: a `ValueError` with no agents,
otherwise run the first agent up to `self.max_iterations or 10` times
(clamped at zero for a negative bound), checking the optional condition after
each call. -/
def execute_loop (agents : List (WAgent s e)) (condition : Option (Ctx → Nat → Bool))
    (max_iterations : Option Int) (input : Ctx) (st : s) : Except (PyErr e) Ctx × s :=
  match agents with
  | [] => (.error (PyErr.valueError "Loop workflow requires at least one agent"), st)
  | agent :: _ => loopGo agent condition (pyIntOr max_iterations 10).toNat 0 input st

/-- Generic association-list lookup for the agents dict of a conditional
workflow (`agents_dict.get(key)`). -/
def alookup [BEq k] : List (k × a) → k → Option a
  | [], _ => Option.none
  | (key, v) :: rest, target => if key == target then some v else alookup rest target

/-- `Workflow._execute_conditional(input_data)` over a `key -> agent` dict:
a `ValueError` when no condition function is configured; otherwise apply the
condition to the raw input to pick the key, a `ValueError` when no agent is
mapped to it (the source message also carries the key), and invoke the single
selected agent on the raw input's task description and parameters, returning
its result directly. -/
def execute_conditional [BEq k] (agents : List (k × WAgent s e))
    (condition : Option (Ctx → k)) (input : Ctx) (st : s) : Except (PyErr e) Ctx × s :=
  match condition with
  | Option.none =>
    (.error (PyErr.valueError "Conditional workflow requires a condition function"), st)
  | some cond =>
    match alookup agents (cond input) with
    | Option.none => (.error (PyErr.valueError "No agent found for condition key"), st)
    | some agent => agent st (taskDescOf input) (wparamsOf input)

/-- A list of agents handed to a conditional workflow is first turned into an
index-keyed dict (`\x7bi: a for i, a in enumerate(self.agents)\x7d`). -/
def execute_conditional_list (agents : List (WAgent s e))
    (condition : Option (Ctx → Nat)) (input : Ctx) (st : s) : Except (PyErr e) Ctx × s :=
  execute_conditional agents.enum condition input st

/-!
The runtime registry (`runtime/agent_runtime.py`): string-keyed registries of
agents, teams and workflows. Lookups return an optional value and never
raise; the two execution entry points raise a `ValueError` when the target is
missing and otherwise delegate.
-/

/-- `TeamMetadata` (`models/agent_models.py`): name, scope label and the agent
ids filled into the team's slots. -/
structure TeamMetadata where
  name : String
  scope : String
  agent_ids : List String

/-- A registered agent as the runtime drives it: `process_task(task,
parameters)` on an object with mutable state `s`. -/
abbrev RAgent (s e : Type) := AgentTask → Option Ctx → s → Except (PyErr e) Ctx × s

/-- A registered workflow as the runtime drives it: `execute(input_data)` on
an object with mutable state `s`. -/
abbrev RWorkflow (s e : Type) := Ctx → s → Except (PyErr e) Ctx × s

/-- The three registries of `AgentRuntime`. -/
structure AgentRuntime (s e : Type) where
  agents : List (String × RAgent s e)
  teams : List (String × TeamMetadata)
  workflows : List (String × RWorkflow s e)

/-- `AgentRuntime.get_agent(agent_id)`: `self.agents.get(agent_id)`. -/
def get_agent (rt : AgentRuntime s e) (agent_id : String) : Option (RAgent s e) :=
  alookup rt.agents agent_id

/-- `AgentRuntime.get_team(team_name)`: `self.teams.get(team_name)`. -/
def get_team (rt : AgentRuntime s e) (team_name : String) : Option TeamMetadata :=
  alookup rt.teams team_name

/-- `AgentRuntime.get_workflow(workflow_name)`: `self.workflows.get(...)`. -/
def get_workflow (rt : AgentRuntime s e) (workflow_name : String) :
    Option (RWorkflow s e) :=
  alookup rt.workflows workflow_name

/-- `AgentRuntime.execute_workflow(workflow_name, input_data)`: raise
`ValueError(f"Workflow \x7bworkflow_name\x7d not found")` when the lookup
fails, otherwise `workflow.execute(input_data)`. -/
def execute_workflow (rt : AgentRuntime s e) (workflow_name : String)
    (input_data : Ctx) (st : s) : Except (PyErr e) Ctx × s :=
  match get_workflow rt workflow_name with
  | Option.none =>
    (.error (PyErr.valueError ("Workflow " ++ workflow_name ++ " not found")), st)
  | some w => w input_data st

/-- `AgentRuntime.execute_task_with_agent(agent_id, task, parameters)`: raise
`ValueError(f"Agent \x7bagent_id\x7d not found")` when the lookup fails,
otherwise `agent.process_task(task, parameters)`. -/
def execute_task_with_agent (rt : AgentRuntime s e) (agent_id : String)
    (task : AgentTask) (parameters : Option Ctx) (st : s) : Except (PyErr e) Ctx × s :=
  match get_agent rt agent_id with
  | Option.none =>
    (.error (PyErr.valueError ("Agent " ++ agent_id ++ " not found")), st)
  | some agent => agent task parameters st

/-!
Specification-side definitions and concrete fixtures used by the statements
below. The `claimed` definitions follow the spec's words so they can be
compared with the source-derived definitions above; the fixtures are the
concrete agents, states and tasks the scenarios and counterexamples run on.
-/

/-- Whether a value is something other than Python `None`. -/
def notNone : Value → Bool
  | .none => false
  | _ => true

/-- The resolution notion `validate_variables` actually implements (the spec's
notion further restricted on dotted names): the placeholder must resolve, and
a dotted placeholder must not resolve to `None`. -/
def resolvesNonNone (vars : Ctx) (content : List Char) : Bool :=
  match resolvePh vars content with
  | some w => if content.contains '.' then notNone w else true
  | Option.none => false

/-- The context merge claimed by the spec for `process_task` (later wins):
parameters, then variables, then task parameters, then the extra context
passed to the call. -/
def claimedContextC1 (st : AgentState) (task : AgentTask) (extra : Ctx) : Ctx :=
  dictUpdate (dictUpdate (dictUpdate (parametersOf st) st.vars) task.parameters) extra

/-- The context merge the source actually performs (later wins): parameters,
then the extra context (which `process_task` folds into the parameter
namespace first), then variables, then task parameters. -/
def mergedContextAmended (st : AgentState) (task : AgentTask) (extra : Ctx) : Ctx :=
  dictUpdate (dictUpdate (dictUpdate (parametersOf st) extra) st.vars) task.parameters

/-- A generation logic that reports the resolved prompt it was handed,
used to observe the context `process_task` resolves placeholders against. -/
def obsGen : Gen Empty := fun _ p => .ok [("prompt", .str p)]

/-- A generation logic that always raises the given exception. -/
def throwGen (exc : e) : Gen e := fun _ _ => .error exc

/-- Fixture agent state: one variable `k = "v"`, empty parameter namespace. -/
def st0 : AgentState :=
  { agent_id := "a1", status := .idle, current_task := Option.none,
    completed_tasks := [], vars := [("k", .str "v")],
    metadata := [("parameters", .dict [])] }

/-- Fixture task: prompt `"\x7bk\x7d"`, no task parameters, no output key. -/
def task0 : AgentTask :=
  { task_id := "t1", prompt := "\x7bk\x7d", parameters := [], output_key := Option.none }

/-- A loop agent that increments a `counter` in its own variables dict and
reports the new count in its result. -/
def counterAgent : WAgent Ctx Empty := fun vs _ _ =>
  let n := (match dget vs "counter" with | some (.int i) => i | _ => 0) + 1
  (.ok [("counter", .int n)], dset vs "counter" (.int n))

/-- A family of loop agents whose state counts how often the agent was
invoked, while the result of each call is an arbitrary function of the count
so far and the two arguments. -/
def countingAgent (f : Nat → Value → Value → Ctx) : WAgent Nat e :=
  fun n d p => (.ok (f n d p), n + 1)

/-- A conditional-branch agent that records its name in the shared log. -/
def recAgent (name : String) : WAgent (List String) Empty :=
  fun log _ _ => (.ok [], log ++ [name])

/-- A workflow agent that always raises the given exception, leaving its own
state unchanged. -/
def throwAgent (exc : PyErr e) : WAgent s e := fun stx _ _ => (.error exc, stx)

/-- A workflow agent that always returns the given result dict, leaving its
own state unchanged. -/
def constAgent (r : Ctx) : WAgent s e := fun stx _ _ => (.ok r, stx)

/-- Fixture result dict of a pipeline stage, carrying a task description and
a parameters dict for the next stage. -/
def seqResultA : Ctx :=
  [("task_description", .str "stage2"), ("parameters", .dict [("p", .int 1)])]

/-- Fixture result dict of a final pipeline stage. -/
def seqResultB : Ctx := [("out", .int 2)]

/-- Fixture runtime: one agent, one team, one workflow that echoes its input. -/
def rt0 : AgentRuntime Nat String :=
  { agents := [("a1", fun _ _ st => (.ok [("done", .bool true)], st))],
    teams := [("team1", { name := "team1", scope := "content", agent_ids := ["a1"] })],
    workflows := [("w1", fun input st => (.ok input, st))] }

/-!
Supporting lemmas.
-/

/-- Lookup distributes over the append underlying `dictUpdate`. -/
theorem dget_append (u d : Ctx) (key : String) :
    dget (u ++ d) key = match dget u key with
      | some v => some v
      | Option.none => dget d key := by
  induction u with
  | nil => rfl
  | cons hd tl ih =>
    obtain ⟨k, v⟩ := hd
    by_cases h : k == key
    · simp [dget, h]
    · simp [dget, h, ih]

/-- `str.split(".")` never returns an empty list. -/
theorem splitDotAux_ne_nil (cs acc : List Char) : splitDotAux cs acc ≠ [] := by
  induction cs generalizing acc with
  | nil => simp [splitDotAux]
  | cons c rest ih =>
    by_cases h : c = '.'
    · simp [splitDotAux, h]
    · simp only [splitDotAux, if_neg h]
      exact ih _

/-- The substitution walk agrees with strict resolution: a resolved path
renders its final value with `str`, anything else keeps the original text. -/
theorem substWalk_eq_resolve (orig : String) (parts : List String) (v : Value) :
    substWalk orig v parts = match resolveWalk v parts with
      | some w => pystr w
      | Option.none => orig := by
  induction parts generalizing v with
  | nil => cases v <;> rfl
  | cons p rest ih =>
    cases v with
    | dict m =>
      simp only [substWalk, resolveWalk]
      cases h : dget m p with
      | none =>
        simp only [h, Option.getD]
        cases rest with
        | nil => rfl
        | cons q rest' => rfl
      | some w => simp only [h, Option.getD]; exact ih w
    | none => rfl
    | str s => rfl
    | int n => rfl
    | bool b => rfl
    | list l => rfl

/-- The `replace_var` callback agrees with strict resolution. -/
theorem replaceVar_eq_resolve (vars : Ctx) (content : List Char) :
    replaceVar vars content = match resolvePh vars content with
      | some v => pystr v
      | Option.none => phOrig content := by
  unfold replaceVar resolvePh
  by_cases hdot : content.contains '.'
  · simp only [hdot, if_true]
    exact substWalk_eq_resolve _ _ _
  · simp only [hdot, if_false]
    cases h : dget vars (String.mk content) with
    | none =>
      simp [h, pyStrEq]
    | some v =>
      cases v with
      | str s =>
        simp only [h, Option.getD, pyStrEq]
        by_cases hs : s == phOrig content
        · simp only [hs, if_true, pystr]
          exact (beq_iff_eq.mp hs).symm
        · simp [hs, pystr]
      | none => simp [h, pyStrEq]
      | int n => simp [h, pyStrEq]
      | bool b => simp [h, pyStrEq]
      | dict m => simp [h, pyStrEq]
      | list l => simp [h, pyStrEq]

/-- On a non-empty path, the validation walk agrees with strict resolution
further restricted to a non-`None` final value. -/
theorem validateWalk_eq_resolve (parts : List String) (v : Value) (h : parts ≠ []) :
    validateWalk v parts = match resolveWalk v parts with
      | some w => !(notNone w)
      | Option.none => true := by
  induction parts generalizing v with
  | nil => exact absurd rfl h
  | cons p rest ih =>
    cases v with
    | dict m =>
      simp only [validateWalk, resolveWalk]
      cases hp : dget m p with
      | none => rfl
      | some w =>
        cases w with
        | none =>
          cases rest with
          | nil => rfl
          | cons q rest' => rfl
        | str s =>
          cases rest with
          | nil => rfl
          | cons q rest' => exact ih _ (by simp)
        | int n =>
          cases rest with
          | nil => rfl
          | cons q rest' => exact ih _ (by simp)
        | bool b =>
          cases rest with
          | nil => rfl
          | cons q rest' => exact ih _ (by simp)
        | dict m' =>
          cases rest with
          | nil => rfl
          | cons q rest' => exact ih _ (by simp)
        | list l =>
          cases rest with
          | nil => rfl
          | cons q rest' => exact ih _ (by simp)
    | none => rfl
    | str s => rfl
    | int n => rfl
    | bool b => rfl
    | list l => rfl

/-- `splitOnDot` never returns an empty list. -/
theorem splitOnDot_ne_nil (cs : List Char) : splitOnDot cs ≠ [] :=
  splitDotAux_ne_nil cs []

/-- `validate_variables` marks a placeholder missing exactly when it fails the
non-`None` resolution notion. -/
theorem isMissingName_eq (vars : Ctx) (content : List Char) :
    isMissingName vars content = !(resolvesNonNone vars content) := by
  unfold isMissingName resolvesNonNone resolvePh
  by_cases hdot : content.contains '.'
  · simp only [hdot, if_true]
    rw [validateWalk_eq_resolve _ _ (splitOnDot_ne_nil content)]
    cases resolveWalk (.dict vars) (splitOnDot content) with
    | none => rfl
    | some w => simp
  · simp only [hdot, if_false]
    cases dget vars (String.mk content) with
    | none => rfl
    | some w => simp

/-- C4 (amended): every placeholder that does not resolve (a missing simple
name, a dotted path with a missing part, or a dotted path hitting a non-map
value mid-walk) is left verbatim in the output of `substitute_variables`,
while each resolvable placeholder is replaced by its value's string form;
`validate_variables` reports as missing exactly the placeholders failing the
stricter notion that additionally rejects a dotted path resolving to `None`,
its ok flag being true exactly when every placeholder resolves in that
stricter sense; in particular the claimed oceans/audience scenario holds. -/
theorem c4_substitution (text : String) (vars : Ctx) :
    (substitute_variables text vars
      = String.join ((tokenize text.data).map fun t =>
          match t with
          | .lit c => String.mk [c]
          | .ph content => ((resolvePh vars content).map pystr).getD (phOrig content)))
  ∧ (validate_variables text vars
      = (let missing := ((extractContents text).filter
            (fun content => !(resolvesNonNone vars content))).map String.mk
         (missing.isEmpty, missing)))
  ∧ ((validate_variables text vars).1 = true
      ↔ ∀ content ∈ extractContents text, resolvesNonNone vars content = true)
  ∧ (substitute_variables "Write about {topic} for {audience}"
      [("topic", .str "oceans")] = "Write about oceans for \x7baudience\x7d")
  ∧ (validate_variables "Write about {topic} for {audience}"
      [("topic", .str "oceans")] = (false, ["audience"])) := by
  have hmissing : ((extractContents text).filter (isMissingName vars))
      = (extractContents text).filter (fun content => !(resolvesNonNone vars content)) := by
    apply List.filter_congr
    intro c _
    exact isMissingName_eq vars c
  refine ⟨?_, ?_, ?_, rfl, rfl⟩
  · unfold substitute_variables
    congr 1
    apply List.map_congr_left
    intro t _
    cases t with
    | lit c => rfl
    | ph content =>
      show replaceVar vars content
        = ((resolvePh vars content).map pystr).getD (phOrig content)
      rw [replaceVar_eq_resolve]
      cases resolvePh vars content with
      | none => rfl
      | some v => rfl
  · unfold validate_variables
    rw [hmissing]
  · unfold validate_variables
    simp only [hmissing]
    constructor
    · intro h content hc
      rw [List.isEmpty_iff, List.map_eq_nil_iff] at h
      by_contra hfalse
      have hb : resolvesNonNone vars content = false := by
        revert hfalse; cases resolvesNonNone vars content <;> simp
      have hmem : content ∈ (extractContents text).filter
          (fun content => !(resolvesNonNone vars content)) :=
        List.mem_filter.mpr ⟨hc, by simp [hb]⟩
      rw [h] at hmem
      exact absurd hmem (List.not_mem_nil _)
    · intro h
      have hnil : ((extractContents text).filter
          (fun content => !(resolvesNonNone vars content))) = [] := by
        apply List.filter_eq_nil_iff.mpr
        intro c hc
        simp [h c hc]
      simp [hnil]

/-- C4 as stated is false: in the context binding a to a dict binding b to
`None`, the dotted placeholder a.b resolves (and `substitute_variables`
replaces it by the string form "None" of its value), yet `validate_variables`
does not return ok with an empty missing list but reports a.b missing. -/
theorem c4_counterexample :
    (resolvePh [("a", .dict [("b", Value.none)])] (String.data "a.b") = some Value.none)
  ∧ (substitute_variables "{a.b}" [("a", .dict [("b", Value.none)])] = "None")
  ∧ (validate_variables "{a.b}" [("a", .dict [("b", Value.none)])] = (false, ["a.b"]))
  ∧ (validate_variables "{a.b}" [("a", .dict [("b", Value.none)])] ≠ (true, [])) := by
  refine ⟨rfl, rfl, rfl, ?_⟩
  intro h
  exact absurd (congrArg Prod.fst h) (by decide)

/-- The parameter namespace only depends on the metadata dict. -/
theorem parametersOf_congr {a b : AgentState} (h : a.metadata = b.metadata) :
    parametersOf a = parametersOf b := by
  unfold parametersOf
  rw [h]

/-- Updating the parameter namespace rewrites exactly the `"parameters"`
metadata slot. -/
theorem parametersOf_update (st : AgentState) (updates : Ctx) :
    parametersOf (update_parameters st updates) = dictUpdate (parametersOf st) updates := by
  simp [parametersOf, update_parameters, dset, dget]

/-- `prepare_task_context` is the three-way merge, the empty-task-parameters
guard being invisible to the merge (updating with an empty dict is the
identity). -/
theorem prepare_task_context_eq (st : AgentState) (task : AgentTask) :
    prepare_task_context st task
      = dictUpdate (dictUpdate (parametersOf st) st.vars) task.parameters := by
  unfold prepare_task_context
  cases htp : task.parameters with
  | nil => simp [dictUpdate]
  | cons hd tl => simp [dictUpdate]

/-- With a non-empty extra-parameters dict, the pre-generation mutations end
in `update_parameters` applied to the status-adjusted state. -/
theorem midState_eq (st : AgentState) (task : AgentTask) (hd : String × Value) (tl : Ctx) :
    midState st task (some (hd :: tl))
      = update_parameters
          { st with status := AgentStatus.working, current_task := some task.task_id }
          (hd :: tl) := rfl

/-- The pre-generation mutations merge a non-empty extra dict into the
parameter namespace. -/
theorem parametersOf_midState (st : AgentState) (task : AgentTask)
    (hd : String × Value) (tl : Ctx) :
    parametersOf (midState st task (some (hd :: tl)))
      = dictUpdate (parametersOf st) (hd :: tl) := by
  rw [midState_eq, parametersOf_update]
  rfl

/-- The pre-generation mutations never touch the variables namespace. -/
theorem midState_vars (st : AgentState) (task : AgentTask) (ps : Option Ctx) :
    (midState st task ps).vars = st.vars := by
  cases ps with
  | none => rfl
  | some l =>
    cases l with
    | nil => rfl
    | cons hd tl => rfl

/-- The post-generation mutations never touch the metadata dict. -/
theorem finishState_metadata (st : AgentState) (task : AgentTask) (result : Ctx) :
    (finishState st task result).metadata = st.metadata := by
  unfold finishState
  cases task.output_key <;> rfl

/-- Whatever the generation logic does, the state `process_task` returns
carries the metadata of the pre-generation state. -/
theorem process_task_snd_metadata (gen : Gen e) (st : AgentState) (task : AgentTask)
    (ps : Option Ctx) :
    (process_task gen st task ps).2.metadata = (midState st task ps).metadata := by
  simp only [process_task]
  cases hg : gen task (substitute_task_prompt (midState st task ps) task) with
  | error exc => rfl
  | ok result => exact finishState_metadata _ _ _

/-- The result of `process_task` is exactly what the generation logic returns
on the resolved prompt: the value on success, the raised exception on
failure. -/
theorem process_task_fst (gen : Gen e) (st : AgentState) (task : AgentTask)
    (ps : Option Ctx) :
    (process_task gen st task ps).1
      = gen task (substitute_task_prompt (midState st task ps) task) := by
  simp only [process_task]
  cases hg : gen task (substitute_task_prompt (midState st task ps) task) <;> simp [hg]

/-- The prompt is resolved against the amended-order merged context. -/
theorem substitute_task_prompt_midState (st : AgentState) (task : AgentTask)
    (hd : String × Value) (tl : Ctx) :
    substitute_task_prompt (midState st task (some (hd :: tl))) task
      = substitute_variables task.prompt (mergedContextAmended st task (hd :: tl)) := by
  unfold substitute_task_prompt
  rw [prepare_task_context_eq, parametersOf_midState, midState_vars]
  rfl

/-- C1 (amended): the context `process_task` resolves the task prompt against
is the merge of the agent's parameters, the extra context passed to the call
(which the source first folds into the parameter namespace), the agent's
variables, and the task's parameters, later sources winning: the extra
context only overrides the agent's configured parameters and is itself
overridden by the agent's variables and by the task's parameters. -/
theorem c1_context_precedence (st : AgentState) (task : AgentTask) (extra : Ctx)
    (h : extra ≠ []) :
    (prepare_task_context (midState st task (some extra)) task
      = mergedContextAmended st task extra)
  ∧ ((process_task obsGen st task (some extra)).1
      = .ok [("prompt",
          .str (substitute_variables task.prompt (mergedContextAmended st task extra)))]) := by
  cases extra with
  | nil => exact absurd rfl h
  | cons hd tl =>
    constructor
    · rw [prepare_task_context_eq, parametersOf_midState, midState_vars]
      rfl
    · rw [process_task_fst, substitute_task_prompt_midState]
      rfl

/-- C1 as stated is false on the source: with an agent variable `k = "v"` and
extra context `k = "e"`, the context actually used maps `k` to the variable's
value `"v"` (the extra context sits below the variables), while the claimed
merge with the extra context on top would map `k` to `"e"`; `process_task`
observably resolves the prompt to `"v"`. -/
theorem c1_counterexample :
    (dget (prepare_task_context (midState st0 task0 (some [("k", .str "e")])) task0) "k"
      = some (.str "v"))
  ∧ (dget (claimedContextC1 st0 task0 [("k", .str "e")]) "k" = some (.str "e"))
  ∧ ((process_task obsGen st0 task0 (some [("k", .str "e")])).1
      = .ok [("prompt", .str "v")])
  ∧ ("v" : String) ≠ "e" :=
  ⟨rfl, rfl, rfl, by decide⟩

/-- Witness for C1's amended theorem at the fixture agent and task. -/
theorem c1_witness :
    (([("k", Value.str "e")] : Ctx) ≠ [])
  ∧ ((process_task obsGen st0 task0 (some [("k", .str "e")])).1
      = .ok [("prompt",
          .str (substitute_variables task0.prompt
            (mergedContextAmended st0 task0 [("k", .str "e")])))]) :=
  ⟨List.cons_ne_nil _ _,
    (c1_context_precedence st0 task0 [("k", .str "e")] (List.cons_ne_nil _ _)).2⟩

/-- C10: passing a non-empty extra parameters map to `process_task` durably
mutates the agent: the entries land in the parameter namespace of the state
the call returns (whether the generation logic succeeds or raises), and any
later task's context picks them up at lowest precedence (an entry shows
through whenever neither the agent's variables nor the later task's
parameters bind the same key). -/
theorem c10_parameter_persistence (gen : Gen e) (st : AgentState) (task : AgentTask)
    (extra : Ctx) (h : extra ≠ []) :
    (parametersOf (process_task gen st task (some extra)).2
      = dictUpdate (parametersOf st) extra)
  ∧ (∀ t2 : AgentTask, ∀ key v, dget extra key = some v
      → dget (process_task gen st task (some extra)).2.vars key = Option.none
      → dget t2.parameters key = Option.none
      → dget (prepare_task_context (process_task gen st task (some extra)).2 t2) key
          = some v) := by
  have hparams : parametersOf (process_task gen st task (some extra)).2
      = dictUpdate (parametersOf st) extra := by
    cases extra with
    | nil => exact absurd rfl h
    | cons hd tl =>
      rw [parametersOf_congr (process_task_snd_metadata gen st task (some (hd :: tl))),
        parametersOf_midState]
  refine ⟨hparams, ?_⟩
  intro t2 key v hx hv ht
  rw [prepare_task_context_eq, hparams]
  simp [dictUpdate, dget_append, ht, hv, hx]

/-- Witness for C10 at the fixture agent and task, with extra entry `p`. -/
theorem c10_witness :
    (([("p", Value.str "x")] : Ctx) ≠ [])
  ∧ (parametersOf (process_task obsGen st0 task0 (some [("p", .str "x")])).2
      = dictUpdate (parametersOf st0) [("p", .str "x")])
  ∧ (dget (prepare_task_context
        (process_task obsGen st0 task0 (some [("p", .str "x")])).2 task0) "p"
      = some (.str "x")) := by
  have h := c10_parameter_persistence obsGen st0 task0 [("p", Value.str "x")]
    (List.cons_ne_nil _ _)
  exact ⟨List.cons_ne_nil _ _, h.1, h.2 task0 "p" (Value.str "x") rfl rfl rfl⟩

/-- The pre-generation mutations set the status to working. -/
theorem midState_status (st : AgentState) (task : AgentTask) (ps : Option Ctx) :
    (midState st task ps).status = AgentStatus.working := by
  cases ps with
  | none => rfl
  | some l =>
    cases l with
    | nil => rfl
    | cons hd tl => rfl

/-- When the generation logic raises, `process_task` returns the
pre-generation state unchanged. -/
theorem process_task_snd_error (gen : Gen e) (st : AgentState) (task : AgentTask)
    (ps : Option Ctx) (exc : e)
    (h : gen task (substitute_task_prompt (midState st task ps) task) = .error exc) :
    (process_task gen st task ps).2 = midState st task ps := by
  simp only [process_task, h]

/-- A successful sequential prefix continues with the remaining agents at the
shifted index. -/
theorem seqGo_append_ok (bs : List (WAgent s e)) :
    ∀ (as : List (WAgent s e)) (i : Nat) (input : Ctx) (st : s) (r : Ctx) (st' : s),
      seqGo as i input st = (.ok r, st')
      → seqGo (as ++ bs) i input st = seqGo bs (i + as.length) r st' := by
  intro as
  induction as with
  | nil =>
    intro i input st r st' h
    simp only [seqGo, Prod.mk.injEq, Except.ok.injEq] at h
    obtain ⟨h1, h2⟩ := h
    subst h1; subst h2
    simp [seqGo]
  | cons a rest ih =>
    intro i input st r st' h
    have harith : i + 1 + rest.length = i + (rest.length + 1) := by omega
    simp only [seqGo, List.cons_append] at h ⊢
    by_cases hi : i > 0
    · rw [if_pos hi] at h ⊢
      split at h
      · split at h
        · exact absurd h (by simp)
        · have h2 := ih (i + 1) _ _ r st' h
          have h3 : i + 1 + rest.length = i + (a :: rest).length := by
            simp only [List.length_cons]
            omega
          rw [h3] at h2
          exact h2
      · exact absurd h (by simp)
    · rw [if_neg hi] at h ⊢
      split at h
      · exact absurd h (by simp)
      · have h2 := ih (i + 1) _ _ r st' h
        have h3 : i + 1 + rest.length = i + (a :: rest).length := by
          simp only [List.length_cons]
          omega
        rw [h3] at h2
        exact h2

/-- An erroring sequential prefix short-circuits the whole chain with the same
exception. -/
theorem seqGo_append_error (bs : List (WAgent s e)) :
    ∀ (as : List (WAgent s e)) (i : Nat) (input : Ctx) (st : s) (exc : PyErr e) (st' : s),
      seqGo as i input st = (.error exc, st')
      → seqGo (as ++ bs) i input st = (.error exc, st') := by
  intro as
  induction as with
  | nil =>
    intro i input st exc st' h
    simp only [seqGo] at h
    exact absurd h (by simp)
  | cons a rest ih =>
    intro i input st exc st' h
    simp only [seqGo, List.cons_append] at h ⊢
    by_cases hi : i > 0
    · rw [if_pos hi] at h ⊢
      split at h
      · split at h
        · exact h
        · exact ih (i + 1) _ _ exc st' h
      · exact h
    · rw [if_neg hi] at h ⊢
      split at h
      · exact h
      · exact ih (i + 1) _ _ exc st' h

/-- C3 (amended): an exception raised by the generation logic propagates
unmodified out of `process_task` and out of a SEQUENTIAL, LOOP or CONDITIONAL
workflow's execute (no catch, no retry); the agent's status, however, is not
transitioned to error: it stays at working, the value set before execution. -/
theorem c3_error_propagation :
    (∀ (e : Type) (exc : e) (gen : Gen e) (st : AgentState) (task : AgentTask)
        (ps : Option Ctx),
      (∀ t p, gen t p = .error exc)
      → (process_task gen st task ps).1 = .error exc
        ∧ (process_task gen st task ps).2.status = AgentStatus.working)
  ∧ (∀ (s e : Type) (as bs : List (WAgent s e)) (b : WAgent s e) (input : Ctx)
        (st : s) (r : Ctx) (st' : s) (exc : PyErr e),
      seqGo as 0 input st = (.ok r, st')
      → (∀ stx d p, b stx d p = (.error exc, stx))
      → (as = [] ∨ ∃ m, wparamsOf r = Value.dict m)
      → execute_sequential (as ++ b :: bs) input st = (.error exc, st'))
  ∧ (∀ (s e : Type) (agent : WAgent s e) (rest : List (WAgent s e))
        (condition : Option (Ctx → Nat → Bool)) (mi : Option Int) (input : Ctx)
        (st : s) (exc : PyErr e),
      (∀ stx d p, agent stx d p = (.error exc, stx))
      → 1 ≤ (pyIntOr mi 10).toNat
      → execute_loop (agent :: rest) condition mi input st = (.error exc, st))
  ∧ (∀ (s e : Type) (agents : List (String × WAgent s e)) (cnd : Ctx → String)
        (input : Ctx) (st : s) (b : WAgent s e) (exc : PyErr e),
      alookup agents (cnd input) = some b
      → (∀ stx d p, b stx d p = (.error exc, stx))
      → execute_conditional agents (some cnd) input st = (.error exc, st)) := by
  refine ⟨?_, ?_, ?_, ?_⟩
  · intro e exc gen st task ps hgen
    constructor
    · rw [process_task_fst, hgen]
    · rw [process_task_snd_error gen st task ps exc (hgen _ _), midState_status]
  · intro s e as bs b input st r st' exc h1 h2 h3
    have hseq := seqGo_append_ok (b :: bs) as 0 input st r st' h1
    rw [Nat.zero_add] at hseq
    unfold execute_sequential
    rw [hseq]
    rcases h3 with hnil | ⟨m, hm⟩
    · subst hnil
      simp only [seqGo, Prod.mk.injEq, Except.ok.injEq] at h1
      obtain ⟨hr, hst⟩ := h1
      subst hr; subst hst
      simp only [List.length_nil, seqGo]
      rw [if_neg (by omega), h2]
    · by_cases hlen : as.length > 0
      · simp only [seqGo]
        rw [if_pos hlen, hm]
        simp [h2]
      · simp only [seqGo]
        rw [if_neg hlen, h2]
  · intro s e agent rest condition mi input st exc hagent hcap
    unfold execute_loop
    cases hcapn : (pyIntOr mi 10).toNat with
    | zero => omega
    | succ k =>
      simp only [loopGo]
      rw [hagent]
  · intro s e agents cnd input st b exc hlook hagent
    simp only [execute_conditional, hlook]
    rw [hagent]

/-- C3 as stated is false about the status: when the generation logic raises,
`process_task` leaves the agent's status at working — it is not transitioned
to error. -/
theorem c3_counterexample :
    ((process_task (throwGen "boom") st0 task0 Option.none).1 = .error "boom")
  ∧ ((process_task (throwGen "boom") st0 task0 Option.none).2.status
      = AgentStatus.working)
  ∧ AgentStatus.working ≠ AgentStatus.error :=
  ⟨rfl, rfl, by decide⟩

/-- Witness for C3 at concrete throwing generation logic and agents. -/
theorem c3_witness :
    ((process_task (throwGen "boom") st0 task0 Option.none).1 = .error "boom")
  ∧ (execute_sequential ([] ++ throwAgent (PyErr.raised "x") :: []) [] (0 : Nat)
      = (.error (PyErr.raised "x"), 0))
  ∧ (execute_loop [throwAgent (PyErr.raised "x")] Option.none Option.none [] (0 : Nat)
      = (.error (PyErr.raised "x"), 0))
  ∧ (execute_conditional [("a", throwAgent (PyErr.raised "x"))]
      (some fun _ => "a") [] (0 : Nat)
      = (.error (PyErr.raised ("x" : String)), 0)) := by
  refine ⟨?_, ?_, ?_, ?_⟩
  · exact (c3_error_propagation.1 String "boom" (throwGen "boom") st0 task0
      Option.none (fun _ _ => rfl)).1
  · exact c3_error_propagation.2.1 Nat String [] []
      (throwAgent (PyErr.raised "x")) [] 0 [] 0 (PyErr.raised "x")
      rfl (fun _ _ _ => rfl) (Or.inl rfl)
  · exact c3_error_propagation.2.2.1 Nat String (throwAgent (PyErr.raised "x")) []
      Option.none Option.none [] 0 (PyErr.raised "x") (fun _ _ _ => rfl) (by decide)
  · exact c3_error_propagation.2.2.2 Nat String
      [("a", throwAgent (PyErr.raised "x"))] (fun _ => "a") [] 0
      (throwAgent (PyErr.raised "x")) (PyErr.raised "x") rfl (fun _ _ _ => rfl)

/-- C6: a SEQUENTIAL workflow invokes its agents one at a time in list order:
agent 0 is invoked from the raw input's task description and parameters only;
every later agent k receives the running result's task description and its
parameters dict with the whole previous result merged in under the key
`"content"`; the workflow returns the last agent's result. -/
theorem c6_sequential :
    (∀ (s e : Type) (a : WAgent s e) (rest : List (WAgent s e)) (input : Ctx) (st : s),
      execute_sequential (a :: rest) input st
        = (match a st (taskDescOf input) (wparamsOf input) with
           | (.error exc, st') => (.error exc, st')
           | (.ok r, st') => seqGo rest 1 r st'))
  ∧ (∀ (s e : Type) (as : List (WAgent s e)) (b : WAgent s e) (cs : List (WAgent s e))
        (input : Ctx) (st : s) (r : Ctx) (st' : s) (m : Ctx),
      as ≠ []
      → seqGo as 0 input st = (.ok r, st')
      → wparamsOf r = Value.dict m
      → (dget (dictUpdate m [("content", Value.dict r)]) "content"
          = some (Value.dict r))
        ∧ execute_sequential (as ++ b :: cs) input st
          = (match b st' (taskDescOf r)
                (.dict (dictUpdate m [("content", Value.dict r)])) with
             | (.error exc, st'') => (.error exc, st'')
             | (.ok r', st'') => seqGo cs (as.length + 1) r' st''))
  ∧ (∀ (s e : Type) (as : List (WAgent s e)) (b : WAgent s e) (input : Ctx)
        (st : s) (r : Ctx) (st' : s) (m : Ctx),
      as ≠ []
      → seqGo as 0 input st = (.ok r, st')
      → wparamsOf r = Value.dict m
      → execute_sequential (as ++ [b]) input st
        = b st' (taskDescOf r) (.dict (dictUpdate m [("content", Value.dict r)]))) := by
  have hstep : ∀ (s e : Type) (as : List (WAgent s e)) (b : WAgent s e)
      (cs : List (WAgent s e)) (input : Ctx) (st : s) (r : Ctx) (st' : s) (m : Ctx),
      as ≠ []
      → seqGo as 0 input st = (.ok r, st')
      → wparamsOf r = Value.dict m
      → execute_sequential (as ++ b :: cs) input st
        = (match b st' (taskDescOf r)
              (.dict (dictUpdate m [("content", Value.dict r)])) with
           | (.error exc, st'') => (.error exc, st'')
           | (.ok r', st'') => seqGo cs (as.length + 1) r' st'') := by
    intro s e as b cs input st r st' m hne h1 hm
    have hseq := seqGo_append_ok (b :: cs) as 0 input st r st' h1
    rw [Nat.zero_add] at hseq
    unfold execute_sequential
    rw [hseq]
    have hlen : as.length > 0 := List.length_pos.mpr hne
    simp only [seqGo]
    rw [if_pos hlen, hm]
  refine ⟨?_, ?_, ?_⟩
  · intro s e a rest input st
    unfold execute_sequential
    simp only [seqGo]
    rw [if_neg (by omega)]
  · intro s e as b cs input st r st' m hne h1 hm
    refine ⟨by simp [dictUpdate, dget], hstep s e as b cs input st r st' m hne h1 hm⟩
  · intro s e as b input st r st' m hne h1 hm
    rw [hstep s e as b [] input st r st' m hne h1 hm]
    cases hb : b st' (taskDescOf r) (.dict (dictUpdate m [("content", Value.dict r)])) with
    | mk res stx => cases res <;> simp [seqGo]

/-- Witness for C6 on a two-stage pipeline of constant agents. -/
theorem c6_witness :
    (dget (dictUpdate [("p", Value.int 1)] [("content", Value.dict seqResultA)]) "content"
      = some (Value.dict seqResultA))
  ∧ (execute_sequential [constAgent seqResultA, (constAgent seqResultB : WAgent Nat Empty)]
      [] 0 = (.ok seqResultB, 0)) := by
  have h := c6_sequential.2.2 Nat Empty [constAgent seqResultA] (constAgent seqResultB)
    [] 0 seqResultA 0 [("p", Value.int 1)] (by simp) rfl rfl
  exact ⟨(c6_sequential.2.1 Nat Empty [constAgent seqResultA] (constAgent seqResultB) []
    [] 0 seqResultA 0 [("p", Value.int 1)] (by simp) rfl rfl).1, h.trans rfl⟩

/-- A successful parallel prefix prepends its results, in agent order, to the
results of the remaining agents. -/
theorem parGo_append_ok (d p : Value) (bs : List (WAgent s e)) :
    ∀ (as : List (WAgent s e)) (st : s) (rs : List Ctx) (st' : s) (rs' : List Ctx)
      (st'' : s),
      parGo d p as st = (.ok rs, st')
      → parGo d p bs st' = (.ok rs', st'')
      → parGo d p (as ++ bs) st = (.ok (rs ++ rs'), st'') := by
  intro as
  induction as with
  | nil =>
    intro st rs st' rs' st'' h hb
    simp only [parGo, Prod.mk.injEq, Except.ok.injEq] at h
    obtain ⟨h1, h2⟩ := h
    subst h1; subst h2
    simpa using hb
  | cons a rest ih =>
    intro st rs st' rs' st'' h hb
    simp only [parGo, List.cons_append] at h ⊢
    split at h
    · exact absurd h (by simp)
    · split at h
      · next heqr =>
        simp only [Prod.mk.injEq, Except.ok.injEq] at h
        obtain ⟨h1, h2⟩ := h
        subst h1; subst h2
        have ih2 := ih _ _ _ _ _ heqr hb
        simp only [List.append_eq]
        rw [ih2]
        simp
      · exact absurd h (by simp)

/-- C5: a PARALLEL workflow dispatches the same task description and
parameters, both taken from the input, to every agent; the gathered results
appear in agent order regardless of the agents' own behaviour; the merged
output is the first agent's result for strategy "first" (an index error with
no agents), the dict with `results` and `merged: True` for "combine", and the
bare `results` dict for any other strategy. -/
theorem c5_parallel :
    (∀ (s e : Type) (d p : Value) (as : List (WAgent s e)) (b : WAgent s e)
        (cs : List (WAgent s e)) (st : s) (rs : List Ctx) (st' : s) (r : Ctx)
        (st'' : s) (rs' : List Ctx) (s3 : s),
      parGo d p as st = (.ok rs, st')
      → b st' d p = (.ok r, st'')
      → parGo d p cs st'' = (.ok rs', s3)
      → parGo d p (as ++ b :: cs) st = (.ok (rs ++ r :: rs'), s3))
  ∧ (∀ (s e : Type) (agents : List (WAgent s e)) (input : Ctx) (st : s)
        (rs : List Ctx) (st' : s),
      parGo (taskDescOf input) (wparamsOf input) agents st = (.ok rs, st')
      → (execute_parallel agents (some "first") input st
          = (match rs with
             | r :: _ => (.ok r, st')
             | [] => (.error PyErr.indexError, st')))
        ∧ (execute_parallel agents (some "combine") input st
            = (.ok [("results", .list (rs.map .dict)), ("merged", .bool true)], st'))
        ∧ (∀ ms : Option String, msEq ms "first" = false → msEq ms "combine" = false
            → execute_parallel agents ms input st
              = (.ok [("results", .list (rs.map .dict))], st'))) := by
  constructor
  · intro s e d p as b cs st rs st' r st'' rs' s3 h hb hcs
    have hmid : parGo d p (b :: cs) st' = (.ok (r :: rs'), s3) := by
      simp [parGo, hb, hcs]
    exact parGo_append_ok d p (b :: cs) as st rs st' (r :: rs') s3 h hmid
  · intro s e agents input st rs st' h
    refine ⟨?_, ?_, ?_⟩
    · cases rs with
      | nil => simp [execute_parallel, h, msEq]
      | cons r rest => simp [execute_parallel, h, msEq]
    · simp [execute_parallel, h, msEq]
    · intro ms hf hc
      simp [execute_parallel, h, hf, hc]

/-- Witness for C5 on two constant agents. -/
theorem c5_witness :
    (parGo (Value.str "Process task") (Value.dict [])
        ([] ++ constAgent seqResultA :: [(constAgent seqResultB : WAgent Nat Empty)]) 0
      = (.ok ([] ++ seqResultA :: [seqResultB]), 0))
  ∧ (execute_parallel [constAgent seqResultA, (constAgent seqResultB : WAgent Nat Empty)]
      (some "first") [] 0 = (.ok seqResultA, 0))
  ∧ (execute_parallel [constAgent seqResultA, (constAgent seqResultB : WAgent Nat Empty)]
      (some "combine") [] 0
      = (.ok [("results", .list [.dict seqResultA, .dict seqResultB]),
              ("merged", .bool true)], 0))
  ∧ (execute_parallel [constAgent seqResultA, (constAgent seqResultB : WAgent Nat Empty)]
      Option.none [] 0
      = (.ok [("results", .list [.dict seqResultA, .dict seqResultB])], 0)) := by
  have h := c5_parallel.2 Nat Empty
    [constAgent seqResultA, constAgent seqResultB] [] 0 [seqResultA, seqResultB] 0 rfl
  have h1 := c5_parallel.1 Nat Empty (Value.str "Process task") (Value.dict [])
    [] (constAgent seqResultA) [constAgent seqResultB] 0 [] 0 seqResultA 0
    [seqResultB] 0 rfl rfl rfl
  exact ⟨h1, h.1.trans rfl, h.2.1.trans rfl, (h.2.2 Option.none rfl rfl).trans rfl⟩

/-- C7: a CONDITIONAL workflow with no condition function fails fast with a
`ValueError` and no agent runs (the state comes back untouched whatever the
agents are); when the condition's key has no agent in the map it likewise
fails fast untouched; otherwise exactly the selected agent is invoked, with
the raw input's task description and parameters, and its output is returned
directly; concretely, with branches a and b and a condition returning "a",
only agent a's record appears in the log. -/
theorem c7_conditional :
    (∀ (s e : Type) (agents : List (String × WAgent s e)) (input : Ctx) (st : s),
      execute_conditional agents Option.none input st
        = (.error (PyErr.valueError "Conditional workflow requires a condition function"),
           st))
  ∧ (∀ (s e : Type) (agents : List (String × WAgent s e)) (cnd : Ctx → String)
        (input : Ctx) (st : s),
      alookup agents (cnd input) = Option.none
      → execute_conditional agents (some cnd) input st
        = (.error (PyErr.valueError "No agent found for condition key"), st))
  ∧ (∀ (s e : Type) (agents : List (String × WAgent s e)) (cnd : Ctx → String)
        (input : Ctx) (st : s) (b : WAgent s e),
      alookup agents (cnd input) = some b
      → execute_conditional agents (some cnd) input st
        = b st (taskDescOf input) (wparamsOf input))
  ∧ (execute_conditional
        [("a", recAgent "a"), ("b", recAgent "b")] (some fun _ => "a") [] ([] : List String)
      = (.ok [], ["a"])) := by
  refine ⟨?_, ?_, ?_, rfl⟩
  · intro s e agents input st
    rfl
  · intro s e agents cnd input st hlook
    simp only [execute_conditional, hlook]
  · intro s e agents cnd input st b hlook
    simp only [execute_conditional, hlook]

/-- Witness for C7 discharging the lookup hypotheses on the two-branch map. -/
theorem c7_witness :
    (execute_conditional [("a", recAgent "a"), ("b", recAgent "b")]
        (some fun _ => "c") [] ([] : List String)
      = (.error (PyErr.valueError "No agent found for condition key"), []))
  ∧ (execute_conditional [("a", recAgent "a"), ("b", recAgent "b")]
        (some fun _ => "b") [] ([] : List String)
      = recAgent "b" [] (taskDescOf []) (wparamsOf []))
  ∧ (execute_conditional ([("a", recAgent "a"), ("b", recAgent "b")] :
        List (String × WAgent (List String) Empty)) Option.none [] []
      = (.error (PyErr.valueError "Conditional workflow requires a condition function"),
         [])) :=
  ⟨c7_conditional.2.1 (List String) Empty [("a", recAgent "a"), ("b", recAgent "b")]
      (fun _ => "c") [] [] rfl,
   c7_conditional.2.2.1 (List String) Empty [("a", recAgent "a"), ("b", recAgent "b")]
      (fun _ => "b") [] [] (recAgent "b") rfl,
   c7_conditional.1 (List String) Empty [("a", recAgent "a"), ("b", recAgent "b")] [] []⟩

/-- With no condition, the loop body runs the counting agent once per unit of
fuel and succeeds. -/
theorem loopGo_counting_nocond (e : Type) (f : Nat → Value → Value → Ctx) :
    ∀ (fuel it n : Nat) (res : Ctx),
      ∃ r, loopGo (countingAgent (e := e) f) Option.none fuel it res n
        = (.ok r, n + fuel) := by
  intro fuel
  induction fuel with
  | zero => intro it n res; exact ⟨res, by simp [loopGo]⟩
  | succ fuel ih =>
    intro it n res
    obtain ⟨r, hr⟩ := ih (it + 1) (n + 1) (f n (taskDescOf res) (wparamsOf res))
    refine ⟨r, ?_⟩
    simp only [loopGo, countingAgent]
    rw [hr]
    have : n + 1 + fuel = n + (fuel + 1) := by omega
    rw [this]

/-- With a condition that always accepts, the loop body likewise runs the
counting agent once per unit of fuel. -/
theorem loopGo_counting_alwaystrue (e : Type) (f : Nat → Value → Value → Ctx)
    (c : Ctx → Nat → Bool) (hc : ∀ r it, c r it = true) :
    ∀ (fuel it n : Nat) (res : Ctx),
      ∃ r, loopGo (countingAgent (e := e) f) (some c) fuel it res n
        = (.ok r, n + fuel) := by
  intro fuel
  induction fuel with
  | zero => intro it n res; exact ⟨res, by simp [loopGo]⟩
  | succ fuel ih =>
    intro it n res
    obtain ⟨r, hr⟩ := ih (it + 1) (n + 1) (f n (taskDescOf res) (wparamsOf res))
    refine ⟨r, ?_⟩
    simp only [loopGo, countingAgent, hc, if_true]
    rw [hr]
    have : n + 1 + fuel = n + (fuel + 1) := by omega
    rw [this]

/-- Whatever the condition, the counting agent's count grows by at most the
fuel, and by at least one when there is fuel. -/
theorem loopGo_counting_bounds (e : Type) (f : Nat → Value → Value → Ctx)
    (condition : Option (Ctx → Nat → Bool)) :
    ∀ (fuel it n : Nat) (res : Ctx),
      n ≤ (loopGo (countingAgent (e := e) f) condition fuel it res n).2
      ∧ (loopGo (countingAgent (e := e) f) condition fuel it res n).2 ≤ n + fuel
      ∧ (1 ≤ fuel
          → n + 1 ≤ (loopGo (countingAgent (e := e) f) condition fuel it res n).2) := by
  intro fuel
  induction fuel with
  | zero =>
    intro it n res
    refine ⟨by simp [loopGo], by simp [loopGo], by omega⟩
  | succ fuel ih =>
    intro it n res
    obtain ⟨s1, s2, _⟩ := ih (it + 1) (n + 1) (f n (taskDescOf res) (wparamsOf res))
    cases condition with
    | none =>
      simp only [loopGo, countingAgent]
      exact ⟨by omega, by omega, fun _ => by omega⟩
    | some c =>
      simp only [loopGo, countingAgent]
      cases hcc : c (f n (taskDescOf res) (wparamsOf res)) it with
      | true =>
        rw [if_pos rfl]
        exact ⟨by omega, by omega, fun _ => by omega⟩
      | false =>
        rw [if_neg Bool.false_ne_true]
        exact ⟨by omega, by omega, fun _ => by omega⟩

/-- The loop returns either the initial input untouched (no fuel) or the
result of the counting agent's final call. -/
theorem loopGo_counting_result (e : Type) (f : Nat → Value → Value → Ctx)
    (condition : Option (Ctx → Nat → Bool)) :
    ∀ (fuel it n : Nat) (res : Ctx),
      (loopGo (countingAgent (e := e) f) condition fuel it res n = (.ok res, n))
      ∨ (∃ d p, (loopGo (countingAgent (e := e) f) condition fuel it res n).1
          = .ok (f ((loopGo (countingAgent (e := e) f) condition fuel it res n).2 - 1) d p)) := by
  intro fuel
  induction fuel with
  | zero => intro it n res; exact Or.inl (by simp [loopGo])
  | succ fuel ih =>
    intro it n res
    cases condition with
    | none =>
      rcases ih (it + 1) (n + 1) (f n (taskDescOf res) (wparamsOf res)) with hl | ⟨d, p, hr⟩
      · right
        refine ⟨taskDescOf res, wparamsOf res, ?_⟩
        simp only [loopGo, countingAgent]
        rw [hl]
        simp
      · right
        refine ⟨d, p, ?_⟩
        simp only [loopGo, countingAgent]
        exact hr
    | some c =>
      cases hcc : c (f n (taskDescOf res) (wparamsOf res)) it with
      | false =>
        right
        refine ⟨taskDescOf res, wparamsOf res, ?_⟩
        simp [loopGo, countingAgent, hcc]
      | true =>
        rcases ih (it + 1) (n + 1) (f n (taskDescOf res) (wparamsOf res)) with hl | ⟨d, p, hr⟩
        · right
          refine ⟨taskDescOf res, wparamsOf res, ?_⟩
          simp only [loopGo, countingAgent, hcc, if_true]
          rw [hl]
          simp
        · right
          refine ⟨d, p, ?_⟩
          simp only [loopGo, countingAgent, hcc, if_true]
          exact hr

/-- C8 (amended): a LOOP workflow with at least one agent always terminates
after at most E calls, where the effective bound E is `max_iterations` when
that is a positive number, 10 when it is unset or 0, and 0 when it is
negative; it calls the agent at least once whenever E is at least one, calls
it exactly E times when there is no condition or an always-true condition,
calls it exactly once when the condition rejects the first result, and
returns the final call's result (the input unchanged when E is 0). The call
count is observed through a counting agent of arbitrary behaviour. -/
theorem c8_loop_termination :
    (∀ (e : Type) (f : Nat → Value → Value → Ctx) (mi : Option Int) (input : Ctx),
      ∃ r, execute_loop (e := e) [countingAgent f] Option.none mi input 0
        = (.ok r, (pyIntOr mi 10).toNat))
  ∧ (∀ (e : Type) (f : Nat → Value → Value → Ctx) (c : Ctx → Nat → Bool)
        (mi : Option Int) (input : Ctx),
      (∀ r it, c r it = true)
      → ∃ r, execute_loop (e := e) [countingAgent f] (some c) mi input 0
          = (.ok r, (pyIntOr mi 10).toNat))
  ∧ (∀ (e : Type) (f : Nat → Value → Value → Ctx) (c : Ctx → Nat → Bool)
        (mi : Option Int) (input : Ctx),
      (∀ r, c r 0 = false)
      → 1 ≤ (pyIntOr mi 10).toNat
      → ∃ r, execute_loop (e := e) [countingAgent f] (some c) mi input 0 = (.ok r, 1))
  ∧ (∀ (e : Type) (f : Nat → Value → Value → Ctx)
        (condition : Option (Ctx → Nat → Bool)) (mi : Option Int) (input : Ctx),
      (execute_loop (e := e) [countingAgent f] condition mi input 0).2
        ≤ (pyIntOr mi 10).toNat
      ∧ (1 ≤ (pyIntOr mi 10).toNat
          → 1 ≤ (execute_loop (e := e) [countingAgent f] condition mi input 0).2))
  ∧ (∀ (e : Type) (f : Nat → Value → Value → Ctx)
        (condition : Option (Ctx → Nat → Bool)) (mi : Option Int) (input : Ctx),
      (execute_loop (e := e) [countingAgent f] condition mi input 0 = (.ok input, 0))
      ∨ (∃ d p, (execute_loop (e := e) [countingAgent f] condition mi input 0).1
          = .ok (f ((execute_loop (e := e) [countingAgent f] condition mi input 0).2 - 1)
              d p)))
  ∧ ((pyIntOr Option.none 10 = 10) ∧ (pyIntOr (some 0) 10 = 10)
      ∧ (pyIntOr (some 5) 10 = 5) ∧ (pyIntOr (some (-3)) 10 = -3)) := by
  refine ⟨?_, ?_, ?_, ?_, ?_, rfl, rfl, rfl, rfl⟩
  · intro e f mi input
    obtain ⟨r, hr⟩ := loopGo_counting_nocond e f (pyIntOr mi 10).toNat 0 0 input
    exact ⟨r, by simpa using hr⟩
  · intro e f c mi input hc
    obtain ⟨r, hr⟩ := loopGo_counting_alwaystrue e f c hc (pyIntOr mi 10).toNat 0 0 input
    exact ⟨r, by simpa using hr⟩
  · intro e f c mi input hc hcap
    cases hcapn : (pyIntOr mi 10).toNat with
    | zero => omega
    | succ k =>
      refine ⟨f 0 (taskDescOf input) (wparamsOf input), ?_⟩
      simp [execute_loop, hcapn, loopGo, countingAgent, hc]
  · intro e f condition mi input
    obtain ⟨s1, s2, s3⟩ :=
      loopGo_counting_bounds e f condition (pyIntOr mi 10).toNat 0 0 input
    exact ⟨by simpa using s2, fun hcap => by simpa using s3 hcap⟩
  · intro e f condition mi input
    rcases loopGo_counting_result e f condition (pyIntOr mi 10).toNat 0 0 input
      with hl | ⟨d, p, hr⟩
    · exact Or.inl hl
    · exact Or.inr ⟨d, p, hr⟩

/-- C8 as stated is false at `max_iterations = 0`: Python's `or` treats 0 as
falsy, so the bound becomes 10 and an always-true-condition loop calls the
agent 10 times, not 0. -/
theorem c8_counterexample :
    (execute_loop [countingAgent (e := Empty) (fun n _ _ => [("n", .int (Int.ofNat n))])]
        (some fun _ _ => true) (some 0) [] 0
      = (.ok [("n", .int 9)], 10))
  ∧ (10 : Nat) ≠ 0 :=
  ⟨rfl, by decide⟩

/-- Witness for C8 at concrete bounds and conditions. -/
theorem c8_witness :
    (∃ r, execute_loop [countingAgent (e := Empty) (fun n _ _ => [("n", .int (Int.ofNat n))])]
        Option.none (some 3) [] 0 = (.ok r, (pyIntOr (some 3) 10).toNat))
  ∧ (∃ r, execute_loop [countingAgent (e := Empty) (fun n _ _ => [("n", .int (Int.ofNat n))])]
        (some fun _ _ => true) (some 3) [] 0 = (.ok r, (pyIntOr (some 3) 10).toNat))
  ∧ (∃ r, execute_loop [countingAgent (e := Empty) (fun n _ _ => [("n", .int (Int.ofNat n))])]
        (some fun _ _ => false) (some 3) [] 0 = (.ok r, 1))
  ∧ ((execute_loop [countingAgent (e := Empty) (fun n _ _ => [("n", .int (Int.ofNat n))])]
        (some fun r _ => (dget r "never").isSome) (some 3) [] 0).2 ≤ 3) := by
  refine ⟨?_, ?_, ?_, ?_⟩
  · exact c8_loop_termination.1 Empty (fun n _ _ => [("n", .int (Int.ofNat n))]) (some 3) []
  · exact c8_loop_termination.2.1 Empty (fun n _ _ => [("n", .int (Int.ofNat n))])
      (fun _ _ => true) (some 3) [] (fun _ _ => rfl)
  · exact c8_loop_termination.2.2.1 Empty (fun n _ _ => [("n", .int (Int.ofNat n))])
      (fun _ _ => false) (some 3) [] (fun _ => rfl) (by decide)
  · exact (c8_loop_termination.2.2.2.1 Empty (fun n _ _ => [("n", .int (Int.ofNat n))])
      (some fun r _ => (dget r "never").isSome) (some 3) []).1

/-- C2 (amended): the LOOP scenario with a counter-incrementing agent, the
condition `iteration < 3` and `max_iterations = 10` makes exactly 4 calls and
ends with the counter at 4: the condition is evaluated after each call with
the pre-increment iteration index, so indices 0, 1 and 2 accept and index 3,
seen after the fourth call, rejects. -/
theorem c2_loop_scenario :
    ((execute_loop [counterAgent] (some fun _ it => decide (it < 3)) (some 10) [] []).1
      = .ok [("counter", .int 4)])
  ∧ (dget (execute_loop [counterAgent] (some fun _ it => decide (it < 3))
        (some 10) [] []).2 "counter" = some (.int 4)) :=
  ⟨rfl, rfl⟩

/-- C2 as stated is false: the scenario's loop leaves the counter at 4, not
3 — the agent is called four times. -/
theorem c2_counterexample :
    (dget (execute_loop [counterAgent] (some fun _ it => decide (it < 3))
        (some 10) [] []).2 "counter" = some (.int 4))
  ∧ (dget (execute_loop [counterAgent] (some fun _ it => decide (it < 3))
        (some 10) [] []).2 "counter" ≠ some (.int 3)) := by
  refine ⟨rfl, ?_⟩
  intro hcontra
  have h4 : dget (execute_loop [counterAgent] (some fun _ it => decide (it < 3))
      (some 10) [] []).2 "counter" = some (.int 4) := rfl
  rw [h4] at hcontra
  simp at hcontra

/-- A lookup over keys that all differ from the target returns nothing. -/
theorem alookup_eq_none [BEq k] (l : List (k × a)) (key : k)
    (h : ∀ p ∈ l, (p.1 == key) = false) : alookup l key = Option.none := by
  induction l with
  | nil => rfl
  | cons hd tl ih =>
    simp only [alookup]
    rw [h hd (by simp)]
    exact ih fun p hp => h p (by simp [hp])

/-- C9: looking up an unknown agent id, team name or workflow name through
`get_agent`, `get_team` or `get_workflow` returns `none` — the lookups are
total functions into an option, so they cannot raise; `execute_workflow` on
an unregistered name and `execute_task_with_agent` on an unregistered id
raise a `ValueError` naming the target and return the state untouched, with
nothing executed, while on registered targets they delegate directly. -/
theorem c9_registry_lookup :
    (∀ (s e : Type) (rt : AgentRuntime s e) (agent_id : String),
      (∀ p ∈ rt.agents, (p.1 == agent_id) = false)
      → get_agent rt agent_id = Option.none)
  ∧ (∀ (s e : Type) (rt : AgentRuntime s e) (team_name : String),
      (∀ p ∈ rt.teams, (p.1 == team_name) = false)
      → get_team rt team_name = Option.none)
  ∧ (∀ (s e : Type) (rt : AgentRuntime s e) (workflow_name : String),
      (∀ p ∈ rt.workflows, (p.1 == workflow_name) = false)
      → get_workflow rt workflow_name = Option.none)
  ∧ (∀ (s e : Type) (rt : AgentRuntime s e) (workflow_name : String) (input : Ctx)
        (st : s),
      get_workflow rt workflow_name = Option.none
      → execute_workflow rt workflow_name input st
        = (.error (PyErr.valueError ("Workflow " ++ workflow_name ++ " not found")), st))
  ∧ (∀ (s e : Type) (rt : AgentRuntime s e) (workflow_name : String) (input : Ctx)
        (st : s) (w : RWorkflow s e),
      get_workflow rt workflow_name = some w
      → execute_workflow rt workflow_name input st = w input st)
  ∧ (∀ (s e : Type) (rt : AgentRuntime s e) (agent_id : String) (task : AgentTask)
        (ps : Option Ctx) (st : s),
      get_agent rt agent_id = Option.none
      → execute_task_with_agent rt agent_id task ps st
        = (.error (PyErr.valueError ("Agent " ++ agent_id ++ " not found")), st))
  ∧ (∀ (s e : Type) (rt : AgentRuntime s e) (agent_id : String) (task : AgentTask)
        (ps : Option Ctx) (st : s) (a : RAgent s e),
      get_agent rt agent_id = some a
      → execute_task_with_agent rt agent_id task ps st = a task ps st) := by
  refine ⟨?_, ?_, ?_, ?_, ?_, ?_, ?_⟩
  · intro s e rt agent_id h
    exact alookup_eq_none rt.agents agent_id h
  · intro s e rt team_name h
    exact alookup_eq_none rt.teams team_name h
  · intro s e rt workflow_name h
    exact alookup_eq_none rt.workflows workflow_name h
  · intro s e rt workflow_name input st h
    simp only [execute_workflow, h]
  · intro s e rt workflow_name input st w h
    simp only [execute_workflow, h]
  · intro s e rt agent_id task ps st h
    simp only [execute_task_with_agent, h]
  · intro s e rt agent_id task ps st a h
    simp only [execute_task_with_agent, h]

/-- Witness for C9 on the fixture runtime: unknown names yield `none` lookups
and fail-fast execution errors; the registered workflow executes. -/
theorem c9_witness :
    (get_agent rt0 "ghost" = Option.none)
  ∧ (get_team rt0 "ghost" = Option.none)
  ∧ (get_workflow rt0 "ghost" = Option.none)
  ∧ (execute_workflow rt0 "ghost" [] 0
      = (.error (PyErr.valueError ("Workflow " ++ "ghost" ++ " not found")), 0))
  ∧ (execute_task_with_agent rt0 "ghost" task0 Option.none 0
      = (.error (PyErr.valueError ("Agent " ++ "ghost" ++ " not found")), 0))
  ∧ (execute_workflow rt0 "w1" [("x", .int 1)] 0 = (.ok [("x", .int 1)], 0)) := by
  refine ⟨?_, ?_, ?_, ?_, ?_, ?_⟩
  · exact c9_registry_lookup.1 Nat String rt0 "ghost" (by decide)
  · exact c9_registry_lookup.2.1 Nat String rt0 "ghost" (by decide)
  · exact c9_registry_lookup.2.2.1 Nat String rt0 "ghost" (by decide)
  · exact c9_registry_lookup.2.2.2.1 Nat String rt0 "ghost" [] 0 rfl
  · exact c9_registry_lookup.2.2.2.2.2.1 Nat String rt0 "ghost" task0 Option.none 0 rfl
  · exact (c9_registry_lookup.2.2.2.2.1 Nat String rt0 "w1" [("x", .int 1)] 0
      (fun input st => (.ok input, st)) rfl).trans rfl

end AW
